import Mathlib

/-!
# Verification of the sigsci-module-golang request lifecycle

A shallow embedding of the Signal Sciences golang module (package `sigsci`):
the HTTP header map operations used by the module (Go `net/http.Header` /
`net/textproto` semantics), the response recorder (`responsewriter.go`), the
verdict classification and the request lifecycle (`ServeHTTP` and its helpers),
the body-read gate (`shouldReadBody` / `inspectableContentType`) and the
agent-message construction (`NewRPCMsgIn`), together with theorems checking the
claims of the specification against these definitions.
-/

namespace Sigsci

/-! ## String helpers (Go `strings` package)

Structural reimplementations of the string primitives the module uses, over
the character list of the string. -/

/-- Whether the second list is a prefix of the first. -/
def listStartsWith : List Char → List Char → Bool
  | _, [] => true
  | [], _ :: _ => false
  | c :: s, p :: ps => c == p && listStartsWith s ps

/-- Models `strings.HasPrefix(s, p)`. -/
def strStartsWith (s p : String) : Bool :=
  listStartsWith s.data p.data

def containsAux : List Char → List Char → Bool
  | [], p => p.isEmpty
  | c :: t, p => listStartsWith (c :: t) p || containsAux t p

/-- Models `strings.Contains(s, sub)`: true when `sub` occurs as a substring
of `s` (always true for the empty pattern). -/
def strContains (s sub : String) : Bool :=
  containsAux s.data sub.data

/-- Models `strings.ToLower` (the module only meets ASCII content types). -/
def strToLower (s : String) : String :=
  String.mk (s.data.map Char.toLower)

/-! ## Canonical header keys (Go `net/textproto`)

`validHeaderFieldChar` models `validHeaderFieldByte`: a token character as
allowed in an HTTP header field name (ASCII alphanumerics and the token
specials). Characters outside ASCII are invalid, matching the byte-level Go
check on ASCII input. -/

def validHeaderFieldChar (c : Char) : Bool :=
  c.isAlphanum ||
  c == Char.ofNat 33 ||   -- !
  c == Char.ofNat 35 ||   -- #
  c == Char.ofNat 36 ||   -- $
  c == Char.ofNat 37 ||   -- %
  c == Char.ofNat 38 ||   -- &
  c == Char.ofNat 39 ||   -- apostrophe
  c == Char.ofNat 42 ||   -- *
  c == Char.ofNat 43 ||   -- +
  c == Char.ofNat 45 ||   -- hyphen
  c == Char.ofNat 46 ||   -- .
  c == Char.ofNat 94 ||   -- caret
  c == Char.ofNat 95 ||   -- underscore
  c == Char.ofNat 96 ||   -- grave accent
  c == Char.ofNat 124 ||  -- vertical bar
  c == Char.ofNat 126     -- tilde

/-- One pass of `canonicalMIMEHeaderKey`: uppercase the first letter of each
hyphen-separated token, lowercase every other letter. The boolean tracks
whether the next character starts a token. -/
def canonChars : List Char → Bool → List Char
  | [], _ => []
  | c :: cs, upper =>
    let c2 := if upper then c.toUpper else c.toLower
    c2 :: canonChars cs (c2 == Char.ofNat 45)

/-- Models `textproto.CanonicalMIMEHeaderKey`: if any character is not a valid
header field character the string is returned unchanged, otherwise it is
canonical-cased (`X-Sigsci-Tags` style). -/
def canonicalHeaderKey (s : String) : String :=
  if s.data.all validHeaderFieldChar then String.mk (canonChars s.data true) else s

/-! ## The header map (Go `net/http.Header`)

The Go `http.Header` is a `map[string][]string` keyed by canonical header names.
We model it as an association list of (canonical key, values). The Go map has
unique keys; our operations treat a duplicated key by acting on its first
entry, which is what the observation `valuesC` (first match) sees, so all
pointwise facts hold for arbitrary lists. -/

abbrev Header : Type := List (String × List String)

/-- The value list stored under an (already canonical) key; `[]` if absent. -/
def valuesC : Header → String → List String
  | [], _ => []
  | e :: t, ck => if e.1 = ck then e.2 else valuesC t ck

/-- `MIMEHeader.Del`: remove every entry for the (already canonical) key. -/
def delC : Header → String → Header
  | [], _ => []
  | e :: t, ck => if e.1 = ck then delC t ck else e :: delC t ck

/-- `MIMEHeader.Set`: the key maps to exactly the one value afterwards. -/
def setC (h : Header) (ck v : String) : Header :=
  delC h ck ++ [(ck, [v])]

/-- `MIMEHeader.Add`: append the value to the entry for the key, creating the
entry if needed (acts on the first entry; a Go map has at most one). -/
def addC : Header → String → String → Header
  | [], ck, v => [(ck, [v])]
  | e :: t, ck, v => if e.1 = ck then (e.1, e.2 ++ [v]) :: t else e :: addC t ck v

/-- `http.Header.Values`: all values for the key, after canonicalizing it. -/
def headerValues (h : Header) (k : String) : List String :=
  valuesC h (canonicalHeaderKey k)

/-- `http.Header.Get`: the first value for the canonical key, `""` if none. -/
def headerGet (h : Header) (k : String) : String :=
  (headerValues h k).headD ""

/-- `http.Header.Set`. -/
def headerSet (h : Header) (k v : String) : Header :=
  setC h (canonicalHeaderKey k) v

/-- `http.Header.Add`. -/
def headerAdd (h : Header) (k v : String) : Header :=
  addC h (canonicalHeaderKey k) v

/-- `http.Header.Del`. -/
def headerDel (h : Header) (k : String) : Header :=
  delC h (canonicalHeaderKey k)

/-! ### Pointwise behaviour of the header operations -/

theorem valuesC_delC : ∀ (h : Header) (ck ck2 : String),
    valuesC (delC h ck) ck2 = if ck2 = ck then [] else valuesC h ck2
  | [], ck, ck2 => by simp [delC, valuesC]
  | e :: t, ck, ck2 => by
    simp only [delC]
    by_cases he : e.1 = ck
    · rw [if_pos he, valuesC_delC t ck ck2]
      by_cases h2 : ck2 = ck
      · simp only [if_pos h2]
      · simp only [if_neg h2, valuesC,
          if_neg (fun h3 : e.1 = ck2 => h2 (h3.symm.trans he))]
    · rw [if_neg he]
      simp only [valuesC]
      by_cases h3 : e.1 = ck2
      · rw [if_pos h3, if_pos h3,
          if_neg (fun h2 : ck2 = ck => he (h3.trans h2))]
      · rw [if_neg h3, if_neg h3]
        exact valuesC_delC t ck ck2

theorem valuesC_setC : ∀ (h : Header) (ck v ck2 : String),
    valuesC (setC h ck v) ck2 = if ck2 = ck then [v] else valuesC h ck2
  | [], ck, v, ck2 => by
    simp only [setC, delC, List.nil_append, valuesC]
    by_cases h2 : ck2 = ck
    · rw [if_pos h2.symm, if_pos h2]
    · rw [if_neg (fun h : ck = ck2 => h2 h.symm), if_neg h2]
  | e :: t, ck, v, ck2 => by
    have h1 : valuesC (delC t ck ++ [(ck, [v])]) ck2 =
        if ck2 = ck then [v] else valuesC t ck2 := valuesC_setC t ck v ck2
    simp only [setC, delC]
    by_cases he : e.1 = ck
    · rw [if_pos he, h1]
      by_cases h2 : ck2 = ck
      · simp only [if_pos h2]
      · simp only [if_neg h2, valuesC,
          if_neg (fun h3 : e.1 = ck2 => h2 (h3.symm.trans he))]
    · rw [if_neg he, List.cons_append]
      simp only [valuesC]
      by_cases h3 : e.1 = ck2
      · rw [if_pos h3, if_pos h3,
          if_neg (fun h2 : ck2 = ck => he (h3.trans h2))]
      · rw [if_neg h3, if_neg h3, h1]

theorem valuesC_addC : ∀ (h : Header) (ck v ck2 : String),
    valuesC (addC h ck v) ck2 =
      if ck2 = ck then valuesC h ck2 ++ [v] else valuesC h ck2
  | [], ck, v, ck2 => by
    simp only [addC, valuesC]
    by_cases h2 : ck2 = ck
    · rw [if_pos h2.symm, if_pos h2]
      simp
    · rw [if_neg (fun h : ck = ck2 => h2 h.symm), if_neg h2]
  | e :: t, ck, v, ck2 => by
    simp only [addC]
    by_cases he : e.1 = ck
    · rw [if_pos he]
      simp only [valuesC]
      by_cases h3 : e.1 = ck2
      · rw [if_pos h3, if_pos h3, if_pos (h3.symm.trans he)]
      · rw [if_neg h3, if_neg h3,
          if_neg (fun h2 : ck2 = ck => h3 (he.trans h2.symm))]
    · rw [if_neg he]
      simp only [valuesC]
      by_cases h3 : e.1 = ck2
      · rw [if_pos h3, if_pos h3,
          if_neg (fun h2 : ck2 = ck => he (h3.trans h2))]
      · rw [if_neg h3, if_neg h3]
        exact valuesC_addC t ck v ck2

theorem headerValues_set (h : Header) (k v k2 : String) :
    headerValues (headerSet h k v) k2 =
      if canonicalHeaderKey k2 = canonicalHeaderKey k then [v]
      else headerValues h k2 := by
  simp [headerValues, headerSet, valuesC_setC]

theorem headerValues_add (h : Header) (k v k2 : String) :
    headerValues (headerAdd h k v) k2 =
      if canonicalHeaderKey k2 = canonicalHeaderKey k then headerValues h k2 ++ [v]
      else headerValues h k2 := by
  simp [headerValues, headerAdd, valuesC_addC]

theorem headerValues_del (h : Header) (k k2 : String) :
    headerValues (headerDel h k) k2 =
      if canonicalHeaderKey k2 = canonicalHeaderKey k then []
      else headerValues h k2 := by
  simp [headerValues, headerDel, valuesC_delC]

/-! ## Response-header actions (rpc.go / schema)

`Action` is the wire action record `{Code int8, Args []string}`; the opcode
constants mirror `AddHdr = iota + 1; SetHdr; SetNEHdr; DelHdr`. -/

structure Action where
  code : Int
  args : List String
  deriving DecidableEq, Repr

def AddHdr : Int := 1
def SetHdr : Int := 2
def SetNEHdr : Int := 3
def DelHdr : Int := 4

/-! ## The response recorder (responsewriter.go)

`RecState` is the state of a `responseRecorder` together with the base
header map of the base writer and the body bytes forwarded to the base writer (modelled
as a string). `actions = Option.none` models a nil Go slice; `some l` a
non-nil slice (possibly empty). -/

structure RecState where
  header : Header
  code : Int
  size : Int
  body : String
  actions : Option (List Action)
  deriving DecidableEq, Repr

/-- `newResponseWriter`: status code starts at 200 (the implicit `WriteHeader(200)` contract of net/http), nothing written yet. -/
def mkRecorder (h : Header) (actions : Option (List Action)) : RecState :=
  { header := h, code := 200, size := 0, body := "", actions := actions }

/-- `NewResponseWriter(base)` — the exported constructor passes a nil action
list to `newResponseWriter`. -/
def NewResponseWriter (h : Header) : RecState :=
  mkRecorder h Option.none

/-- One case of the `mergeHeader` switch over `a.Code`; missing arguments read
as `""` (the agent always sends a name and, except for Del, a value). An
unknown opcode falls through the switch and does nothing. -/
def applyAction (h : Header) (a : Action) : Header :=
  if a.code = AddHdr then headerAdd h (a.args.getD 0 "") (a.args.getD 1 "")
  else if a.code = SetHdr then headerSet h (a.args.getD 0 "") (a.args.getD 1 "")
  else if a.code = SetNEHdr then
    (if (headerGet h (a.args.getD 0 "")).length = 0 then
      headerSet h (a.args.getD 0 "") (a.args.getD 1 "")
    else h)
  else if a.code = DelHdr then headerDel h (a.args.getD 0 "")
  else h

/-- `responseRecorder.mergeHeader`: apply every pending action in order to the
header of the base writer, then drop the list (`w.actions = nil`). -/
def mergeHeader (w : RecState) : RecState :=
  match w.actions with
  | Option.none => w
  | Option.some acts =>
    { w with header := acts.foldl applyAction w.header, actions := Option.none }

/-- `responseRecorder.WriteHeader`: merge pending actions if the list is
non-nil, record the status and forward it to the base writer. -/
def recWriteHeader (w : RecState) (status : Int) : RecState :=
  let w := if w.actions.isSome then mergeHeader w else w
  { w with code := status }

/-- The state change of `responseRecorder.Write`: merge pending actions if the
list is non-nil, add the length of the chunk to the recorded size, and forward
the chunk to the base writer. -/
def recWrite (w : RecState) (b : String) : RecState :=
  let w := if w.actions.isSome then mergeHeader w else w
  { w with size := w.size + (b.length : Int), body := w.body ++ b }

/-- The full `Write` call: the recorder returns whatever the base writer
returned for the forwarded chunk (`return w.base.Write(b)`), `ret` being the
(bytes written, error) reply of the base writer. -/
def recWriteRet (w : RecState) (b : String) (ret : Int × Option String) :
    RecState × (Int × Option String) :=
  (recWrite w b, ret)

/-- The operations a downstream handler may perform on its response writer. -/
inductive WriterOp where
  | writeHeader (status : Int)
  | write (b : String)
  deriving DecidableEq, Repr

def applyWriterOp (w : RecState) : WriterOp → RecState
  | WriterOp.writeHeader status => recWriteHeader w status
  | WriterOp.write b => recWrite w b

/-- Run a sequence of writer operations against the recorder. -/
def runRec : RecState → List WriterOp → RecState
  | w, [] => w
  | w, op :: ops => runRec (applyWriterOp w op) ops

/-- Run a sequence of `Write` calls, each with the reply of the base writer. -/
def runWrites : RecState → List (String × Int × Option String) → RecState
  | w, [] => w
  | w, c :: cs => runWrites (recWriteRet w c.1 c.2).1 cs

/-! ## RPC messages (rpc.go)

Only the fields the verified claims observe are modelled. Identity, timing
and connection fields of `RPCMsgIn` are environment-dependent and omitted;
`HeadersOut` is kept as the header map (the Go code flattens it with
`convertHeaders`, whose pair order follows the map iteration order). -/

structure RPCMsgIn where
  wafResponse : Int
  responseCode : Int
  responseMillis : Int
  responseSize : Int
  postBody : String
  headersOut : Header
  deriving DecidableEq, Repr

structure RPCMsgIn2 where
  requestID : String
  responseCode : Int
  responseMillis : Int
  responseSize : Int
  headersOut : Header
  deriving DecidableEq, Repr

structure RPCMsgOut where
  wafResponse : Int
  requestID : String
  requestHeaders : List (String × String)
  respActions : List Action
  deriving DecidableEq, Repr

/-! ## Module configuration

Fields from `ModuleConfig` used by the verified code paths. The `ModuleConfig`
definition itself is not under src; its accessors and the defaults appear in
config_test.go, except for the two content-type extension hooks:

* `extendContentTypes` — Modelled from the spec: the configuration flag read
  by `shouldReadBody` is absent from src; per the body-read gate of the spec, the
  configuration may additionally permit content types (an extension hook), and
  this flag accepts every content type.
* `isExpectedContentType` — Modelled from the spec: `IsExpectedContentType` is
  absent from src; per the spec it is the configuration extension hook that
  additionally permits custom (configuration-supplied) content types. -/

structure ModuleConfig where
  allowUnknownContentLength : Bool
  maxContentLength : Int
  anomalySize : Int
  anomalyDuration : Int
  extendContentTypes : Bool
  isExpectedContentType : String → Bool

/-- `ModuleConfig.IsAllowCode` (config_test.go): allow is exactly code 200.
The receiver carries no data used by the check, so it is modelled as a plain
function. -/
def IsAllowCode (code : Int) : Bool :=
  code = 200

/-- `ModuleConfig.IsBlockCode` (config_test.go): block is any code in
[300, 599]. -/
def IsBlockCode (code : Int) : Bool :=
  300 ≤ code ∧ code ≤ 599

/-! ## The body-read gate (part_001: shouldReadBody / inspectableContentType) -/

/-- The inbound request data consulted by the verified code paths. `hasBody`
models `req.Body != nil`; `body` the bytes a full read of the body yields. -/
structure Request where
  method : String
  header : Header
  hasBody : Bool
  body : String
  contentLength : Int
  deriving DecidableEq, Repr

/-- `inspectableContentType`: content-type families whose bodies are sent to
the agent (case-insensitive). -/
def inspectableContentType (s0 : String) : Bool :=
  let s := strToLower s0
  if strStartsWith s "application/x-www-form-urlencoded" then true
  else if strStartsWith s "multipart/form-data" then true
  else if strContains s "json" || strContains s "javascript" then true
  else if strStartsWith s "text/xml" || strStartsWith s "application/xml" ||
          strContains s "+xml" then true
  else if strStartsWith s "application/grpc" then true
  else if strStartsWith s "application/graphql" then true
  else if s = "" then true
  else false

/-- `shouldReadBody`: whether the request body is buffered and sent to the
agent. The last check models `len(strings.SplitN(ct, ",", 2)) > 1`, which
holds exactly when the content type contains a comma. -/
def shouldReadBody (cfg : ModuleConfig) (req : Request) : Bool :=
  if !req.hasBody then false
  else if ¬(cfg.allowUnknownContentLength = true ∧ req.contentLength = -1) ∧
          (req.contentLength ≤ 0 ∨ req.contentLength > cfg.maxContentLength) then
    false
  else if cfg.extendContentTypes then true
  else if inspectableContentType (headerGet req.header "Content-Type") then true
  else if cfg.isExpectedContentType (headerGet req.header "Content-Type") then true
  else if (headerValues req.header "Content-Type").length > 1 then true
  else if strContains (headerGet req.header "Content-Type") "," then true
  else false

/-! ## Agent message construction (part_001: NewRPCMsgIn) -/

/-- The response-describing fields of `NewRPCMsgIn(mcfg, r, postbody, code,
size, dur)`: `ResponseCode = int32(code)` (statuses are small, so the int32
conversion is the identity), `ResponseMillis = dur.Milliseconds()` (Go
truncated division of nanoseconds), `ResponseSize = size`,
`PostBody = string(postbody)`. `dur` is in nanoseconds. -/
def NewRPCMsgIn (cfg : ModuleConfig) (req : Request) (postbody : String)
    (code : Int) (size : Int) (dur : Int) : RPCMsgIn :=
  { wafResponse := 0
    responseCode := code
    responseMillis := Int.tdiv dur 1000000
    responseSize := size
    postBody := postbody
    headersOut := [] }

/-- The `RequestIn` built by `inspectorPreRequest` for the PreRequest call:
the body is read when the gate selects buffering, and the message is
`NewRPCMsgIn(m.config, req, reqbody, -1, -1, 0)`. -/
def preRequestMsg (cfg : ModuleConfig) (req : Request) : RPCMsgIn :=
  let reqbody := if shouldReadBody cfg req then req.body else ""
  NewRPCMsgIn cfg req reqbody (-1) (-1) 0

/-! ## Request-header propagation (part_001: inspectorPreRequest, 239-258) -/

/-- One returned request-header pair: an `X-Sigsci-` canonically-prefixed name
uses `Set` (replace), any other name uses `Add` (append). -/
def applyAgentRequestHeader (h : Header) (kv : String × String) : Header :=
  if strStartsWith (canonicalHeaderKey kv.1) "X-Sigsci-" then
    headerSet h kv.1 kv.2
  else
    headerAdd h kv.1 kv.2

/-- The inbound-header mutations performed by `inspectorPreRequest` after a
successful PreRequest call, in source order: set or delete
`X-Sigsci-Requestid`, set `X-Sigsci-Agentresponse` to the decimal verdict,
delete `X-Sigsci-Tags` and `X-Sigsci-Redirect`, then apply the returned
request-header list. -/
def propagateRequestHeaders (out : RPCMsgOut) (h : Header) : Header :=
  let h := if out.requestID ≠ "" then headerSet h "X-Sigsci-Requestid" out.requestID
           else headerDel h "X-Sigsci-Requestid"
  let h := headerSet h "X-Sigsci-Agentresponse" (toString out.wafResponse)
  let h := headerDel h "X-Sigsci-Tags"
  let h := headerDel h "X-Sigsci-Redirect"
  out.requestHeaders.foldl applyAgentRequestHeader h

/-- The same mutations in the order the specification lists them: set
`X-Sigsci-Agentresponse`, set or delete `X-Sigsci-Requestid`, clear
`X-Sigsci-Tags` and `X-Sigsci-Redirect` before the returned request-header
list is applied in order. -/
def propagateRequestHeadersSpec (out : RPCMsgOut) (h : Header) : Header :=
  let h := headerSet h "X-Sigsci-Agentresponse" (toString out.wafResponse)
  let h := if out.requestID ≠ "" then headerSet h "X-Sigsci-Requestid" out.requestID
           else headerDel h "X-Sigsci-Requestid"
  let h := headerDel h "X-Sigsci-Tags"
  let h := headerDel h "X-Sigsci-Redirect"
  out.requestHeaders.foldl applyAgentRequestHeader h

/-! ## Verdict dispatch and the request lifecycle (part_001: ServeHTTP) -/

/-- The block-path response written instead of running the handler. -/
inductive Blocked where
  | redirectResp (location : String) (status : Int)
  | errorResp (body : String) (status : Int)
  deriving DecidableEq, Repr

/-- The single background RPC (if any) dispatched after the response. -/
inductive Dispatch where
  | update (msg : RPCMsgIn2)
  | post (msg : RPCMsgIn)
  | nothing
  deriving DecidableEq, Repr

/-- Models `net/http.Error`: delete Content-Length, set Content-Type and
X-Content-Type-Options on the header of the writer, write the status, then
write the error text as the body — followed by the extra newline that the
closing `fmt.Fprintln(w, error)` appends, so the bytes on the wire are
`msg ++ "\n"`. -/
def httpError (rw : RecState) (msg : String) (status : Int) : RecState :=
  let rw := { rw with
    header := headerSet (headerSet (headerDel rw.header "Content-Length")
      "Content-Type" "text/plain; charset=utf-8")
      "X-Content-Type-Options" "nosniff" }
  recWrite (recWriteHeader rw status) (msg ++ "\n")

/-- Models `net/http.Redirect`: the raw url is first normalized — parsed, a
relative path resolved against the request path, `path.Clean`-ed with the
trailing slash preserved, and hex-escaped — before being set as Location,
then the redirect status is written. `locationOf` is that stdlib
normalization for the request at hand; on a typical clean path-absolute
ASCII url (such as `/login`) it is the identity. The short HTML body that
`net/http.Redirect` adds for GET requests without a preset Content-Type is
not modelled; no verified claim observes the body or size of the redirect
path. -/
def httpRedirect (locationOf : String → String) (rw : RecState)
    (location : String) (status : Int) : RecState :=
  recWriteHeader
    { rw with header := headerSet rw.header "Location" (locationOf location) } status

/-- The verdict-dispatch switch of `ServeHTTP` (lines 120-143): the final
recorder state, how many times the downstream handler ran, and the block
response written (if any). `hdr` is the inbound header map after PreRequest
propagation; `statusText` is `net/http.StatusText` and `locationOf` the
Location normalization of `net/http.Redirect`. -/
def serveVerdict (statusText : Int → String) (locationOf : String → String)
    (hdr : Header) (rw0 : RecState) (wafresponse : Int)
    (handler : List WriterOp) :
    RecState × Nat × Option Blocked :=
  if IsAllowCode wafresponse then
    (runRec rw0 handler, 1, Option.none)
  else if IsBlockCode wafresponse then
    let status := wafresponse
    let redirect := headerGet hdr "X-Sigsci-Redirect"
    if 300 ≤ status ∧ status ≤ 399 ∧ redirect ≠ "" then
      (httpRedirect locationOf rw0 redirect status, 0,
        Option.some (Blocked.redirectResp redirect status))
    else
      let body := toString status ++ " " ++ statusText status ++ "\n"
      (httpError rw0 body status, 0, Option.some (Blocked.errorResp body status))
  else
    (runRec rw0 handler, 1, Option.none)

/-- The post-response decision of `ServeHTTP` (lines 149-181): UpdateRequest
when PreRequest issued a request id, else PostRequest on an anomalous
response, else nothing. `dur` is the elapsed time in nanoseconds. -/
def postResponseDispatch (cfg : ModuleConfig) (req : Request)
    (inspin2 : RPCMsgIn2) (wafresponse : Int) (rw : RecState) (dur : Int) :
    Dispatch :=
  let code := rw.code
  let size := rw.size
  if inspin2.requestID.length > 0 then
    Dispatch.update { inspin2 with
      responseCode := code
      responseSize := size
      responseMillis := Int.tdiv dur 1000000
      headersOut := rw.header }
  else if code ≥ 300 ∨ size ≥ cfg.anomalySize ∨ dur ≥ cfg.anomalyDuration then
    let inspin := NewRPCMsgIn cfg req "" code size dur
    Dispatch.post { inspin with wafResponse := wafresponse, headersOut := rw.header }
  else
    Dispatch.nothing

/-- The observable outcome of one `ServeHTTP` call. `failOpen` is true when
the PreRequest error path ran (handler on the original, unwrapped writer);
`failOpenOps` are the writer operations the client then sees (exactly the
handler writes). `wrapperActions` is the action list the recorder was created
with. -/
structure ServeOutcome where
  failOpen : Bool
  handlerRuns : Nat
  blocked : Option Blocked
  wrapperActions : Option (List Action)
  recorder : RecState
  dispatch : Dispatch
  headersAfter : Header
  failOpenOps : List WriterOp
  deriving DecidableEq, Repr

/-- `ServeHTTP` from the PreRequest call on (the inspector-init gate admits
the request). `w` is the header map of the original writer, `pre` the result of
the PreRequest RPC, `handler` the operations the downstream handler performs
on whatever writer it is given, `dur` the elapsed time in nanoseconds.
`statusText` and `locationOf` are the stdlib status-text table and the
Location normalization of `net/http.Redirect` for this request. -/
def serveHTTP (cfg : ModuleConfig) (statusText : Int → String)
    (locationOf : String → String) (req : Request)
    (w : Header) (pre : Except String RPCMsgOut) (handler : List WriterOp)
    (dur : Int) : ServeOutcome :=
  match pre with
  | Except.error _ =>
    -- Fail open: the downstream handler runs once with the original writer;
    -- no wrapper is created on this path, so the recorder field stays the
    -- untouched placeholder and the handler operations land in failOpenOps.
    { failOpen := true
      handlerRuns := 1
      blocked := Option.none
      wrapperActions := Option.none
      recorder := NewResponseWriter w
      dispatch := Dispatch.nothing
      headersAfter := req.header
      failOpenOps := handler }
  | Except.ok out =>
    let hdr := propagateRequestHeaders out req.header
    let inspin2 : RPCMsgIn2 :=
      { requestID := out.requestID
        responseCode := -1
        responseMillis := -1
        responseSize := -1
        headersOut := [] }
    -- rw := NewResponseWriter(w): a nil action list, out.RespActions unused.
    let rw0 := NewResponseWriter w
    let branch := serveVerdict statusText locationOf hdr rw0 out.wafResponse handler
    { failOpen := false
      handlerRuns := branch.2.1
      blocked := branch.2.2
      wrapperActions := rw0.actions
      recorder := branch.1
      dispatch := postResponseDispatch cfg req inspin2 out.wafResponse branch.1 dur
      headersAfter := hdr
      failOpenOps := [] }

/-! ## Recorder lemmas -/

@[simp] theorem mergeHeader_code (w : RecState) : (mergeHeader w).code = w.code := by
  cases h : w.actions <;> simp [mergeHeader, h]

@[simp] theorem mergeHeader_size (w : RecState) : (mergeHeader w).size = w.size := by
  cases h : w.actions <;> simp [mergeHeader, h]

@[simp] theorem mergeHeader_body (w : RecState) : (mergeHeader w).body = w.body := by
  cases h : w.actions <;> simp [mergeHeader, h]

@[simp] theorem recWrite_size (w : RecState) (b : String) :
    (recWrite w b).size = w.size + (b.length : Int) := by
  by_cases h : w.actions.isSome <;> simp [recWrite, h]

@[simp] theorem recWrite_code (w : RecState) (b : String) :
    (recWrite w b).code = w.code := by
  by_cases h : w.actions.isSome <;> simp [recWrite, h]

@[simp] theorem recWriteHeader_code (w : RecState) (status : Int) :
    (recWriteHeader w status).code = status := by
  by_cases h : w.actions.isSome <;> simp [recWriteHeader, h]

theorem runWrites_size_code : ∀ (calls : List (String × Int × Option String))
    (w : RecState),
    (runWrites w calls).size =
      w.size + ((calls.map fun c => ((c.1.length : Int))).sum) ∧
    (runWrites w calls).code = w.code
  | [], w => by simp [runWrites]
  | c :: cs, w => by
    have ih := runWrites_size_code cs (recWrite w c.1)
    simp only [runWrites, recWriteRet, List.map_cons, List.sum_cons] at ih ⊢
    rw [ih.1, ih.2]
    simp [recWrite_size, recWrite_code]
    ring

/-! ## Claim theorems -/

set_option maxRecDepth 10000

/-- C3: when the PreRequest RPC errors, `ServeHTTP` fails open: the
downstream handler is invoked exactly once with the original (unwrapped)
writer, no background Update/Post dispatch happens, and the client sees
exactly the writes of the handler itself. -/
theorem preRequestError_failsOpen (cfg : ModuleConfig)
    (statusText : Int → String) (locationOf : String → String) (req : Request)
    (w : Header) (e : String) (handler : List WriterOp) (dur : Int) :
    serveHTTP cfg statusText locationOf req w (Except.error e) handler dur =
      { failOpen := true
        handlerRuns := 1
        blocked := Option.none
        wrapperActions := Option.none
        recorder := NewResponseWriter w
        dispatch := Dispatch.nothing
        headersAfter := req.header
        failOpenOps := handler } := rfl

/-- Shared concrete inputs used by witnesses and counterexamples. -/
def cfgW : ModuleConfig :=
  { allowUnknownContentLength := false
    maxContentLength := 100000
    anomalySize := 524288
    anomalyDuration := 1000000000
    extendContentTypes := false
    isExpectedContentType := fun _ => false }

def statusTextW : Int → String := fun c =>
  if c = 406 then "Not Acceptable"
  else if c = 301 then "Moved Permanently"
  else "Unknown"

/-- The `net/http.Redirect` Location normalization on the witness inputs: the
witness redirect url is a clean path-absolute ASCII path, on which the
normalization is the identity. -/
def locationW : String → String := fun s => s

def reqW : Request :=
  { method := "GET"
    header := [("User-Agent", ["tester"])]
    hasBody := false
    body := ""
    contentLength := 0 }

def handlerW : List WriterOp :=
  [WriterOp.writeHeader 200, WriterOp.write "OK"]

/-- C9 (counterexample): the `RequestIn` built for PreRequest does not carry
−1 in all three response fields — `ResponseMillis` is 0, since the call
passes a zero duration (`NewRPCMsgIn(m.config, req, reqbody, -1, -1, 0)`). -/
theorem preRequestMsg_not_all_minus_one :
    ¬ ((preRequestMsg cfgW reqW).responseCode = -1 ∧
       (preRequestMsg cfgW reqW).responseMillis = -1 ∧
       (preRequestMsg cfgW reqW).responseSize = -1) := by
  intro hc
  have := hc.2.1
  simp [preRequestMsg, NewRPCMsgIn] at this

/-- C9 (amended): every `RequestIn` built for the PreRequest call carries
`ResponseCode = -1` and `ResponseSize = -1`, while `ResponseMillis = 0`
because the call passes a zero duration. -/
theorem preRequestMsg_responseFields (cfg : ModuleConfig) (req : Request) :
    (preRequestMsg cfg req).responseCode = -1 ∧
    (preRequestMsg cfg req).responseSize = -1 ∧
    (preRequestMsg cfg req).responseMillis = 0 := by
  refine ⟨rfl, rfl, ?_⟩
  simp [preRequestMsg, NewRPCMsgIn]

/-- A PreRequest reply carrying a response-header action. -/
def outActionsW : RPCMsgOut :=
  { wafResponse := 200
    requestID := ""
    requestHeaders := []
    respActions := [{ code := SetHdr, args := ["Content-Type", "text/json"] }] }

/-- C7: `ServeHTTP` creates its wrapper via `NewResponseWriter(w)`, which
passes a nil action list, so the `RespActions` returned by the agent are never
held by the wrapper: here PreRequest returns a non-empty action list and the
wrapper still holds none. -/
theorem respActions_not_held_by_wrapper :
    (serveHTTP cfgW statusTextW locationW reqW [] (Except.ok outActionsW) handlerW
        0).wrapperActions = Option.none ∧
    outActionsW.respActions ≠ [] := by
  exact ⟨rfl, by simp [outActionsW]⟩

/-- C10: `responseRecorder.Write` always adds the chunk length to the
recorded size before forwarding, so `BytesWritten` is the sum of the lengths
of all chunks passed to Write, whatever (count, error) replies the base
writer returns — and the recorded status changes only through
`WriteHeader`, never through `Write`. -/
theorem responseRecorder_write_accounting :
    (∀ (w : RecState) (calls : List (String × Int × Option String)),
      (runWrites w calls).size =
        w.size + ((calls.map fun c => ((c.1.length : Int))).sum) ∧
      (runWrites w calls).code = w.code) ∧
    (∀ (w : RecState) (b : String) (ret : Int × Option String),
      (recWriteRet w b ret).1.size = w.size + (b.length : Int) ∧
      (recWriteRet w b ret).2 = ret) ∧
    (∀ (w : RecState) (status : Int), (recWriteHeader w status).code = status) := by
  refine ⟨fun w calls => (runWrites_size_code calls w), fun w b ret => ⟨?_, rfl⟩,
    fun w status => recWriteHeader_code w status⟩
  simp [recWriteRet]

/-- `len(s) > 0` in Go is `s ≠ ""`. -/
theorem strLength_pos_iff (s : String) : s.length > 0 ↔ s ≠ "" := by
  cases s with
  | mk l => cases l <;> simp [String.length, String.ext_iff]

/-- C1: the verdict classification — allow is exactly 200, block is exactly
[300, 599], and any other verdict code fails open: the handler runs once on
the recorder and no block response is written. -/
theorem verdictClassification (code : Int) :
    (IsAllowCode code = true ↔ code = 200) ∧
    (IsBlockCode code = true ↔ (300 ≤ code ∧ code ≤ 599)) ∧
    (IsAllowCode code = false → IsBlockCode code = false →
      ∀ (cfg : ModuleConfig) (statusText : Int → String)
        (locationOf : String → String) (req : Request)
        (w : Header) (out : RPCMsgOut) (handler : List WriterOp) (dur : Int),
        out.wafResponse = code →
        (serveHTTP cfg statusText locationOf req w
          (Except.ok out) handler dur).blocked = Option.none ∧
        (serveHTTP cfg statusText locationOf req w
          (Except.ok out) handler dur).handlerRuns = 1 ∧
        (serveHTTP cfg statusText locationOf req w
          (Except.ok out) handler dur).failOpen = false ∧
        (serveHTTP cfg statusText locationOf req w
          (Except.ok out) handler dur).recorder =
          runRec (NewResponseWriter w) handler) := by
  refine ⟨by simp [IsAllowCode], by simp [IsBlockCode], ?_⟩
  intro h1 h2 cfg statusText locationOf req w out handler dur hwaf
  simp [serveHTTP, serveVerdict, hwaf, h1, h2]

/-- An out-of-vocabulary verdict reply. -/
def outUnknownW : RPCMsgOut :=
  { wafResponse := 250, requestID := "", requestHeaders := [], respActions := [] }

theorem verdictClassification_witness :
    IsAllowCode 250 = false ∧ IsBlockCode 250 = false ∧
    (serveHTTP cfgW statusTextW locationW reqW [] (Except.ok outUnknownW) handlerW
      0).blocked = Option.none :=
  ⟨by decide, by decide,
    ((verdictClassification 250).2.2 (by decide) (by decide) cfgW statusTextW
      locationW reqW [] outUnknownW handlerW 0 rfl).1⟩

/-- C4: after verdict dispatch exactly one of Update / Post / nothing is
issued — Update iff PreRequest returned a non-empty request id, otherwise
Post iff the recorded status is ≥ 300 or the bytes written reach the anomaly
size or the elapsed time reaches the anomaly duration, otherwise nothing. -/
theorem dispatchSelection (cfg : ModuleConfig) (statusText : Int → String)
    (locationOf : String → String)
    (req : Request) (w : Header) (out : RPCMsgOut) (handler : List WriterOp)
    (dur : Int) (o : ServeOutcome)
    (ho : o = serveHTTP cfg statusText locationOf req w (Except.ok out) handler dur) :
    ((∃ m, o.dispatch = Dispatch.update m) ↔ out.requestID ≠ "") ∧
    ((∃ m, o.dispatch = Dispatch.post m) ↔
      (out.requestID = "" ∧
        (o.recorder.code ≥ 300 ∨ o.recorder.size ≥ cfg.anomalySize ∨
         dur ≥ cfg.anomalyDuration))) ∧
    (o.dispatch = Dispatch.nothing ↔
      (out.requestID = "" ∧
        ¬(o.recorder.code ≥ 300 ∨ o.recorder.size ≥ cfg.anomalySize ∨
          dur ≥ cfg.anomalyDuration))) := by
  subst ho
  simp only [serveHTTP]
  generalize serveVerdict statusText locationOf (propagateRequestHeaders out req.header)
      (NewResponseWriter w) out.wafResponse handler = branch
  simp only [postResponseDispatch]
  by_cases hid : out.requestID = ""
  · have hlen : ¬ (out.requestID.length > 0) := by
      simp [hid]
    by_cases hcond : branch.1.code ≥ 300 ∨ branch.1.size ≥ cfg.anomalySize ∨
        dur ≥ cfg.anomalyDuration
    · simp [hid, hlen, hcond]
    · simp [hid, hlen, hcond]
  · have hlen : out.requestID.length > 0 := (strLength_pos_iff _).mpr hid
    simp [hid, hlen]

/-- A PreRequest reply carrying a request id. -/
def outUpdW : RPCMsgOut :=
  { wafResponse := 200
    requestID := "0123456789abcdef01234567"
    requestHeaders := []
    respActions := [] }

theorem dispatchSelection_witness :
    (∃ m, (serveHTTP cfgW statusTextW locationW reqW [] (Except.ok outUpdW) handlerW
        0).dispatch = Dispatch.update m) ↔ outUpdW.requestID ≠ "" :=
  (dispatchSelection cfgW statusTextW locationW reqW [] outUpdW handlerW 0 _ rfl).1

@[simp] theorem recWrite_body (w : RecState) (b : String) :
    (recWrite w b).body = w.body ++ b := by
  by_cases h : w.actions.isSome <;> simp [recWrite, h]

@[simp] theorem recWriteHeader_body (w : RecState) (status : Int) :
    (recWriteHeader w status).body = w.body := by
  by_cases h : w.actions.isSome <;> simp [recWriteHeader, h]

theorem blockImpliesNotAllow (c : Int) (h : IsBlockCode c = true) :
    IsAllowCode c = false := by
  simp [IsBlockCode, IsAllowCode] at *
  omega

/-- A PreRequest reply blocking with the standard error (verdict 406). -/
def outBlockW : RPCMsgOut :=
  { wafResponse := 406
    requestID := ""
    requestHeaders := []
    respActions := [] }

/-- C2 (counterexample): on a block verdict without a redirect, the response
body is not the claimed `"<code> <reason>\n"` — `net/http.Error` closes with
`fmt.Fprintln(w, error)`, which appends a second newline, so the bytes on the
wire for verdict 406 are `"406 Not Acceptable\n\n"`. -/
theorem blockBody_not_single_newline :
    (serveHTTP cfgW statusTextW locationW reqW [] (Except.ok outBlockW) handlerW
        0).recorder.body = "406 Not Acceptable\n\n" ∧
    (serveHTTP cfgW statusTextW locationW reqW [] (Except.ok outBlockW) handlerW
        0).recorder.body ≠ "406 Not Acceptable\n" := by
  constructor <;> decide

/-- C2 (amended): on a block verdict the handler never runs; with a 3xx
verdict and a non-empty `X-Sigsci-Redirect` header on the propagated inbound
request the response is a redirect with that status, Location holding that
header value as normalized by `net/http.Redirect` (`locationOf`; the identity
on a typical clean path-absolute ASCII url); otherwise the response carries
the verdict as status and the body is the standard `"<code> <reason>\n"`
error text plus the newline `fmt.Fprintln` appends inside `net/http.Error`. -/
theorem blockVerdict (cfg : ModuleConfig) (statusText : Int → String)
    (locationOf : String → String)
    (req : Request) (w : Header) (out : RPCMsgOut) (handler : List WriterOp)
    (dur : Int) (o : ServeOutcome)
    (ho : o = serveHTTP cfg statusText locationOf req w (Except.ok out) handler dur)
    (hb : IsBlockCode out.wafResponse = true) :
    o.handlerRuns = 0 ∧ o.failOpen = false ∧
    (if 300 ≤ out.wafResponse ∧ out.wafResponse ≤ 399 ∧
        headerGet (propagateRequestHeaders out req.header) "X-Sigsci-Redirect" ≠ "" then
      o.blocked = Option.some (Blocked.redirectResp
          (headerGet (propagateRequestHeaders out req.header) "X-Sigsci-Redirect")
          out.wafResponse) ∧
      o.recorder.code = out.wafResponse ∧
      headerGet o.recorder.header "Location" =
        locationOf (headerGet (propagateRequestHeaders out req.header) "X-Sigsci-Redirect")
    else
      o.blocked = Option.some (Blocked.errorResp
          (toString out.wafResponse ++ " " ++ statusText out.wafResponse ++ "\n")
          out.wafResponse) ∧
      o.recorder.code = out.wafResponse ∧
      o.recorder.body =
        toString out.wafResponse ++ " " ++ statusText out.wafResponse ++ "\n" ++ "\n") := by
  subst ho
  have h1 : IsAllowCode out.wafResponse = false := blockImpliesNotAllow _ hb
  simp only [serveHTTP, serveVerdict, h1, hb, Bool.false_eq_true, if_false, if_true,
    cond_eq_if, Bool.true_eq_false]
  by_cases hr : 300 ≤ out.wafResponse ∧ out.wafResponse ≤ 399 ∧
      headerGet (propagateRequestHeaders out req.header) "X-Sigsci-Redirect" ≠ ""
  · simp only [if_pos hr]
    simp [httpRedirect, NewResponseWriter, mkRecorder, recWriteHeader,
      headerGet, headerValues_set]
  · simp only [if_neg hr]
    simp [httpError, NewResponseWriter, mkRecorder, recWriteHeader, recWrite]

/-- A PreRequest reply blocking with a redirect. -/
def outRedirW : RPCMsgOut :=
  { wafResponse := 301
    requestID := ""
    requestHeaders := [("X-Sigsci-Redirect", "/login")]
    respActions := [] }

theorem blockVerdict_witness :
    IsBlockCode 301 = true ∧
    (serveHTTP cfgW statusTextW locationW reqW [] (Except.ok outRedirW) handlerW
      0).handlerRuns = 0 :=
  ⟨by decide,
    (blockVerdict cfgW statusTextW locationW reqW [] outRedirW handlerW 0 _ rfl
      (by decide)).1⟩

theorem applyWriterOp_noActions (w : RecState) (hw : w.actions = Option.none)
    (op : WriterOp) :
    (applyWriterOp w op).header = w.header ∧
    (applyWriterOp w op).actions = Option.none := by
  cases op <;> simp [applyWriterOp, recWriteHeader, recWrite, hw]

theorem runRec_noActions : ∀ (ops : List WriterOp) (w : RecState),
    w.actions = Option.none →
    (runRec w ops).header = w.header ∧ (runRec w ops).actions = Option.none
  | [], _, hw => ⟨rfl, hw⟩
  | op :: ops, w, hw => by
    have h1 := applyWriterOp_noActions w hw op
    have h2 := runRec_noActions ops (applyWriterOp w op) h1.2
    exact ⟨h2.1.trans h1.1, h2.2⟩

/-- With a pending (non-nil) action list, the first writer operation behaves
exactly as if the actions had already been folded into the header. -/
theorem applyWriterOp_first (h : Header) (l : List Action) (op : WriterOp) :
    applyWriterOp (mkRecorder h (Option.some l)) op =
      applyWriterOp (mkRecorder (l.foldl applyAction h) Option.none) op := by
  cases op <;> simp [applyWriterOp, recWriteHeader, recWrite, mergeHeader, mkRecorder]

/-- C8: a recorder created with a non-nil action list starts at status 200;
the first `WriteHeader` or `Write` applies every action in list order to the
header and clears the list, after which no operation mutates the header
again; with no operations nothing is applied; and the four opcodes have
Add-append / Set-replace / SetIfAbsent-on-empty / Del-remove semantics. -/
theorem responseRecorder_actionApplication (h : Header) (l : List Action) :
    (mkRecorder h (Option.some l)).code = 200 ∧
    (∀ ops : List WriterOp, ops ≠ [] →
      runRec (mkRecorder h (Option.some l)) ops =
        runRec (mkRecorder (List.foldl applyAction h l) Option.none) ops ∧
      (runRec (mkRecorder h (Option.some l)) ops).header =
        List.foldl applyAction h l ∧
      (runRec (mkRecorder h (Option.some l)) ops).actions = Option.none) ∧
    runRec (mkRecorder h (Option.some l)) [] = mkRecorder h (Option.some l) ∧
    (∀ (s : RecState) (ops : List WriterOp), s.actions = Option.none →
      (runRec s ops).header = s.header) ∧
    (∀ (hh : Header) (n v : String),
      headerValues (applyAction hh { code := AddHdr, args := [n, v] }) n =
        headerValues hh n ++ [v]) ∧
    (∀ (hh : Header) (n v : String),
      headerValues (applyAction hh { code := SetHdr, args := [n, v] }) n = [v]) ∧
    (∀ (hh : Header) (n v : String), headerGet hh n = "" →
      headerValues (applyAction hh { code := SetNEHdr, args := [n, v] }) n = [v]) ∧
    (∀ (hh : Header) (n v : String), headerGet hh n ≠ "" →
      applyAction hh { code := SetNEHdr, args := [n, v] } = hh) ∧
    (∀ (hh : Header) (n : String),
      headerValues (applyAction hh { code := DelHdr, args := [n] }) n = []) := by
  refine ⟨rfl, ?_, rfl, fun s ops hs => (runRec_noActions ops s hs).1, ?_, ?_, ?_, ?_, ?_⟩
  · intro ops hne
    match ops with
    | [] => exact absurd rfl hne
    | op :: rest =>
      have heq : runRec (mkRecorder h (Option.some l)) (op :: rest) =
          runRec (mkRecorder (List.foldl applyAction h l) Option.none) (op :: rest) := by
        show runRec (applyWriterOp (mkRecorder h (Option.some l)) op) rest =
          runRec (applyWriterOp (mkRecorder (List.foldl applyAction h l) Option.none) op) rest
        rw [applyWriterOp_first]
      have hbase := applyWriterOp_noActions
        (mkRecorder (List.foldl applyAction h l) Option.none) rfl op
      have hrest := runRec_noActions rest
        (applyWriterOp (mkRecorder (List.foldl applyAction h l) Option.none) op) hbase.2
      refine ⟨heq, ?_, ?_⟩
      · show (runRec (applyWriterOp (mkRecorder h (Option.some l)) op) rest).header = _
        rw [applyWriterOp_first]
        exact hrest.1.trans hbase.1
      · show (runRec (applyWriterOp (mkRecorder h (Option.some l)) op) rest).actions = _
        rw [applyWriterOp_first]
        exact hrest.2
  · intro hh n v
    simp [applyAction, AddHdr, SetHdr, SetNEHdr, DelHdr, headerValues_add]
  · intro hh n v
    simp [applyAction, AddHdr, SetHdr, SetNEHdr, DelHdr, headerValues_set]
  · intro hh n v hg
    simp [applyAction, AddHdr, SetHdr, SetNEHdr, DelHdr, hg, headerValues_set]
  · intro hh n v hg
    have hlen : (headerGet hh n).length ≠ 0 := by
      have := (strLength_pos_iff (headerGet hh n)).mpr hg
      omega
    simp [applyAction, AddHdr, SetHdr, SetNEHdr, DelHdr, hlen]
  · intro hh n
    simp [applyAction, AddHdr, SetHdr, SetNEHdr, DelHdr, headerValues_del]

theorem responseRecorder_actionApplication_witness :
    ([WriterOp.write "x"] : List WriterOp) ≠ [] ∧
    (runRec (mkRecorder [] (Option.some [{ code := AddHdr, args := ["Csp", "src"] }]))
        [WriterOp.write "x"]).header =
      List.foldl applyAction []
        [({ code := AddHdr, args := ["Csp", "src"] } : Action)] :=
  ⟨by simp,
    ((responseRecorder_actionApplication []
        [{ code := AddHdr, args := ["Csp", "src"] }]).2.1
      [WriterOp.write "x"] (by simp)).2.1⟩

/-- The body-read gate as one predicate: a body exists, the declared length
is acceptable, and the content type is accepted. -/
theorem shouldReadBody_iff (cfg : ModuleConfig) (req : Request) :
    shouldReadBody cfg req = true ↔
      (req.hasBody = true ∧
       ((0 < req.contentLength ∧ req.contentLength ≤ cfg.maxContentLength) ∨
        (req.contentLength = -1 ∧ cfg.allowUnknownContentLength = true)) ∧
       (inspectableContentType (headerGet req.header "Content-Type") = true ∨
        cfg.isExpectedContentType (headerGet req.header "Content-Type") = true ∨
        cfg.extendContentTypes = true ∨
        strContains (headerGet req.header "Content-Type") "," = true ∨
        (headerValues req.header "Content-Type").length > 1)) := by
  by_cases hb : req.hasBody = true <;>
    by_cases ha : cfg.allowUnknownContentLength = true <;>
    by_cases hx : cfg.extendContentTypes = true <;>
    by_cases hi : inspectableContentType (headerGet req.header "Content-Type") = true <;>
    by_cases he : cfg.isExpectedContentType (headerGet req.header "Content-Type") = true <;>
    by_cases hv : (headerValues req.header "Content-Type").length > 1 <;>
    by_cases hc : strContains (headerGet req.header "Content-Type") "," = true <;>
    simp_all [shouldReadBody] <;>
    omega

/-- C5: the body-read gate returns true iff a body reader exists, the
declared length is in (0, maxContentLength] or is −1 with unknown lengths
allowed, and the content type is accepted (an inspectable family, a
configuration-permitted type — the extension hook or the accept-everything
flag —, a comma-separated type list, or a multi-valued Content-Type header);
in particular length 0 is never read, length = maxContentLength is read for
an inspectable type, maxContentLength + 1 is never read, and −1 is read
exactly when unknown lengths are allowed. -/
theorem bodyReadGate (cfg : ModuleConfig) (req : Request) :
    (shouldReadBody cfg req = true ↔
      (req.hasBody = true ∧
       ((0 < req.contentLength ∧ req.contentLength ≤ cfg.maxContentLength) ∨
        (req.contentLength = -1 ∧ cfg.allowUnknownContentLength = true)) ∧
       (inspectableContentType (headerGet req.header "Content-Type") = true ∨
        cfg.isExpectedContentType (headerGet req.header "Content-Type") = true ∨
        cfg.extendContentTypes = true ∨
        strContains (headerGet req.header "Content-Type") "," = true ∨
        (headerValues req.header "Content-Type").length > 1))) ∧
    (req.contentLength = 0 → shouldReadBody cfg req = false) ∧
    (req.hasBody = true →
      inspectableContentType (headerGet req.header "Content-Type") = true →
      0 < cfg.maxContentLength → req.contentLength = cfg.maxContentLength →
      shouldReadBody cfg req = true) ∧
    (0 ≤ cfg.maxContentLength → req.contentLength = cfg.maxContentLength + 1 →
      shouldReadBody cfg req = false) ∧
    (req.hasBody = true →
      inspectableContentType (headerGet req.header "Content-Type") = true →
      req.contentLength = -1 →
      (shouldReadBody cfg req = true ↔ cfg.allowUnknownContentLength = true)) := by
  refine ⟨shouldReadBody_iff cfg req, ?_, ?_, ?_, ?_⟩
  · intro h0
    cases hs : shouldReadBody cfg req with
    | false => rfl
    | true =>
      obtain ⟨_, hlen, _⟩ := (shouldReadBody_iff cfg req).mp hs
      rcases hlen with ⟨h1, _⟩ | ⟨h1, _⟩ <;> omega
  · intro hb hi hpos hcl
    exact (shouldReadBody_iff cfg req).mpr ⟨hb, Or.inl ⟨by omega, by omega⟩, Or.inl hi⟩
  · intro hmax hcl
    cases hs : shouldReadBody cfg req with
    | false => rfl
    | true =>
      obtain ⟨_, hlen, _⟩ := (shouldReadBody_iff cfg req).mp hs
      rcases hlen with ⟨h1, h2⟩ | ⟨h1, _⟩ <;> omega
  · intro hb hi hcl
    constructor
    · intro hs
      obtain ⟨_, hlen, _⟩ := (shouldReadBody_iff cfg req).mp hs
      rcases hlen with ⟨h1, _⟩ | ⟨_, h2⟩
      · omega
      · exact h2
    · intro ha
      exact (shouldReadBody_iff cfg req).mpr ⟨hb, Or.inr ⟨hcl, ha⟩, Or.inl hi⟩

/-- A JSON request carrying exactly maxContentLength declared bytes. -/
def reqMaxW : Request :=
  { method := "POST"
    header := [("Content-Type", ["application/json"])]
    hasBody := true
    body := "{}"
    contentLength := 100000 }

set_option maxRecDepth 10000 in
theorem bodyReadGate_witness :
    reqMaxW.contentLength = cfgW.maxContentLength ∧
    shouldReadBody cfgW reqMaxW = true :=
  ⟨by decide,
    (bodyReadGate cfgW reqMaxW).2.2.1 (by decide) (by decide) (by decide) (by decide)⟩

/-- Pointwise equality of headers is preserved by applying the request-header list of the agent. -/
theorem foldl_agentHeaders_congr : ∀ (l : List (String × String)) (h1 h2 : Header),
    (∀ k, headerValues h1 k = headerValues h2 k) →
    ∀ k, headerValues (List.foldl applyAgentRequestHeader h1 l) k =
         headerValues (List.foldl applyAgentRequestHeader h2 l) k
  | [], _, _, hp, k => hp k
  | kv :: t, h1, h2, hp, k => by
    simp only [List.foldl_cons]
    refine foldl_agentHeaders_congr t _ _ (fun k2 => ?_) k
    by_cases hx : strStartsWith (canonicalHeaderKey kv.1) "X-Sigsci-" = true
    · simp [applyAgentRequestHeader, hx, headerValues_set, hp k2]
    · simp only [Bool.not_eq_true] at hx
      simp [applyAgentRequestHeader, hx, headerValues_add, hp k2]

/-- C6: after a successful PreRequest the inbound headers are mutated as the
specification lists it — the source order of the `X-Sigsci-Requestid` and
`X-Sigsci-Agentresponse` updates and the `X-Sigsci-Tags` / `X-Sigsci-Redirect`
deletions is observably the order the specification gives; each returned pair with an
`X-Sigsci-` canonical prefix replaces all values while any other pair
appends; and with no returned pairs the four reserved headers hold exactly
the prescribed values. -/
theorem headerPropagation (out : RPCMsgOut) (h : Header) :
    (∀ k, headerValues (propagateRequestHeaders out h) k =
          headerValues (propagateRequestHeadersSpec out h) k) ∧
    (∀ (hh : Header) (k v : String),
      strStartsWith (canonicalHeaderKey k) "X-Sigsci-" = true →
        headerValues (applyAgentRequestHeader hh (k, v)) k = [v]) ∧
    (∀ (hh : Header) (k v : String),
      strStartsWith (canonicalHeaderKey k) "X-Sigsci-" = false →
        headerValues (applyAgentRequestHeader hh (k, v)) k =
          headerValues hh k ++ [v]) ∧
    (out.requestHeaders = [] →
      headerValues (propagateRequestHeaders out h) "X-Sigsci-Agentresponse" =
        [toString out.wafResponse] ∧
      (out.requestID ≠ "" →
        headerValues (propagateRequestHeaders out h) "X-Sigsci-Requestid" =
          [out.requestID]) ∧
      (out.requestID = "" →
        headerValues (propagateRequestHeaders out h) "X-Sigsci-Requestid" = []) ∧
      headerValues (propagateRequestHeaders out h) "X-Sigsci-Tags" = [] ∧
      headerValues (propagateRequestHeaders out h) "X-Sigsci-Redirect" = []) := by
  refine ⟨?_, ?_, ?_, ?_⟩
  · intro k
    simp only [propagateRequestHeaders, propagateRequestHeadersSpec]
    apply foldl_agentHeaders_congr
    intro k2
    by_cases hid : out.requestID ≠ "" <;>
      [simp only [if_pos hid]; simp only [if_neg hid]] <;>
      by_cases e1 : canonicalHeaderKey k2 = canonicalHeaderKey "X-Sigsci-Requestid" <;>
      by_cases e2 : canonicalHeaderKey k2 = canonicalHeaderKey "X-Sigsci-Agentresponse" <;>
      by_cases e3 : canonicalHeaderKey k2 = canonicalHeaderKey "X-Sigsci-Tags" <;>
      by_cases e4 : canonicalHeaderKey k2 = canonicalHeaderKey "X-Sigsci-Redirect" <;>
      simp_all +decide [headerValues_set, headerValues_del]
  · intro hh k v hx
    simp [applyAgentRequestHeader, hx, headerValues_set]
  · intro hh k v hx
    simp [applyAgentRequestHeader, hx, headerValues_add]
  · intro hreq
    simp only [propagateRequestHeaders, hreq, List.foldl_nil]
    by_cases hid : out.requestID ≠ "" <;>
      [simp only [if_pos hid]; simp only [if_neg hid]] <;>
      refine ⟨?_, ?_, ?_, ?_, ?_⟩ <;>
      simp_all +decide [headerValues_set, headerValues_del]

/-- A PreRequest reply with a tag header for the witness. -/
def outTagsW : RPCMsgOut :=
  { wafResponse := 200
    requestID := "0123456789abcdef01234567"
    requestHeaders := [("X-SigSci-Tags", "XSS")]
    respActions := [] }

set_option maxRecDepth 10000 in
theorem headerPropagation_witness :
    strStartsWith (canonicalHeaderKey "X-SigSci-Tags") "X-Sigsci-" = true ∧
    headerValues (applyAgentRequestHeader [] ("X-SigSci-Tags", "XSS"))
      "X-SigSci-Tags" = ["XSS"] :=
  ⟨by decide,
    (headerPropagation outTagsW []).2.1 [] "X-SigSci-Tags" "XSS" (by decide)⟩

end Sigsci
